import Mathlib

/-!
Shallow embedding of the mark-detection and grid-mapping engine of
`analisador_gabarito_completo.py` (class `DetectorMarcacoes`), together with
theorems settling the specification claims about it.

Modelling conventions:
* Pixel coordinates are integers (`ℤ`): the Python code works on rounded
  integer circle centers and integer reference coordinates.
* The Python code compares Euclidean distances produced by `np.sqrt` of
  integer sums of squares.  On the relevant range (sums of squares of
  coordinates below 10^7) IEEE double `sqrt` is strictly monotone and maps
  900 to exactly 30, so `sqrt a < sqrt b ↔ a < b` and `sqrt a ≤ 30 ↔ a ≤ 900`.
  The embedding therefore works with squared distances throughout; the
  tolerance test `distancia <= 30` becomes `dist_sq ≤ 30 * 30`.
* Mean pixel intensities (`cv2.mean`) are modelled as exact rationals.
* Python dicts are modelled as association lists in insertion order; dict
  iteration (`.items()`) is iteration over that list.
-/

set_option maxRecDepth 3000
set_option maxHeartbeats 1000000

namespace Conab

/-- One column rectangle from `config['regioes_questoes']` (line 57-63). -/
structure Regiao where
  x : ℤ
  y : ℤ
  w : ℤ
  h : ℤ
deriving DecidableEq

/-- The five column regions, in dict insertion order `coluna1` .. `coluna5`
(lines 57-63 of the source). -/
def regioes_questoes : List Regiao :=
  [⟨842, 580, 218, 860⟩, ⟨1125, 580, 215, 860⟩, ⟨1400, 580, 220, 860⟩,
   ⟨1683, 580, 217, 860⟩, ⟨1960, 580, 210, 860⟩]

/-- `config['espacamento_questoes']` (line 64). -/
def espacamento_questoes : ℤ := 44

/-- `config['espacamento_alternativas']` (line 65). -/
def espacamento_alternativas : ℤ := 43

/-- `config['offset_primeira_questao']` (line 66). -/
def offset_primeira_questao : ℤ := 10

/-- The alternative letters `['A', 'B', 'C', 'D', 'E']` (line 163). -/
def alternativas : List Char := ['A', 'B', 'C', 'D', 'E']

/-- One entry of `pontos_referencia['alternativas']`: the dict value
`{'ponto': ..., 'coluna': ..., 'questao_na_coluna': ..., 'alternativa': ...}`
stored under key `f"{col_idx}_{q}_{alternativa}"` (lines 163-172). -/
structure RefAlt where
  ponto : ℤ × ℤ
  coluna : ℕ
  questao_na_coluna : ℕ
  alternativa : Char
deriving DecidableEq

/-- One entry of `pontos_referencia['questoes']` (lines 155-160). -/
structure RefQuestao where
  ponto : ℤ × ℤ
  coluna : ℕ
  questao_na_coluna : ℕ
deriving DecidableEq

/-- `_calcular_pontos_referencia`, the `'questoes'` list (lines 147-160):
for each column and each in-column index `q` of 0..24, the question row
reference point at the horizontal middle of the region. -/
def pontos_referencia_questoes : List RefQuestao :=
  regioes_questoes.enum.flatMap fun cr =>
    (List.range 25).map fun (q : ℕ) =>
      { ponto := (cr.2.x + cr.2.w / 2,
                  cr.2.y + offset_primeira_questao + (q : ℤ) * espacamento_questoes),
        coluna := cr.1,
        questao_na_coluna := q }

/-- `_calcular_pontos_referencia`, the `'alternativas'` dict (lines 147-174):
for each column `col_idx`, in-column index `q` of 0..24 and alternative
letter, a reference point at
`(x_base + alt_idx * espacamento_alternativas, y_base + q * espacamento_questoes)`
with `y_base = regiao.y + offset_primeira_questao`.  The list is in dict
insertion order.  The construction takes no `total_questoes` argument: the
table is independent of the question count. -/
def pontos_referencia_alternativas : List RefAlt :=
  regioes_questoes.enum.flatMap fun cr =>
    (List.range 25).flatMap fun (q : ℕ) =>
      alternativas.enum.map fun aa =>
        { ponto := (cr.2.x + (aa.1 : ℤ) * espacamento_alternativas,
                    cr.2.y + offset_primeira_questao + (q : ℤ) * espacamento_questoes),
          coluna := cr.1,
          questao_na_coluna := q,
          alternativa := aa.2 }

/-- Squared Euclidean distance.  Embeds `_calcular_distancia_euclidiana`
(lines 178-180), which returns `sqrt((x1-x2)**2 + (y1-y2)**2)`; all
comparisons made on those distances in the source are equivalent to the
same comparisons on the squares (see the header note on `sqrt`). -/
def dist_sq (p1 p2 : ℤ × ℤ) : ℤ :=
  (p1.1 - p2.1) * (p1.1 - p2.1) + (p1.2 - p2.2) * (p1.2 - p2.2)

/-- The tolerance of line 202: `distancia <= 30  # 30 pixels de tolerância`.
In squared form the test is `dist_sq ≤ tolerancia * tolerancia`. -/
def tolerancia : ℤ := 30

/-- `questoes_por_coluna = total_questoes // 5` (line 186). -/
def questoes_por_coluna (N : ℕ) : ℕ := N / 5

/-- `resto = total_questoes % 5` (line 187). -/
def resto (N : ℕ) : ℕ := N % 5

/-- `questoes_nesta_coluna = questoes_por_coluna + (1 if coluna < resto else 0)`
(line 207). -/
def questoes_nesta_coluna (N c : ℕ) : ℕ :=
  questoes_por_coluna N + (if c < resto N then 1 else 0)

/-- The absolute question number (lines 211-216):
`questao_numero = coluna * questoes_por_coluna + questao_na_coluna + 1`,
then `if coluna > 0: questao_numero += min(coluna, resto)`. -/
def questao_numero (N c q : ℕ) : ℕ :=
  if 0 < c then
    c * questoes_por_coluna N + q + 1 + min c (resto N)
  else
    c * questoes_por_coluna N + q + 1

/-- The `melhor_match` dict of line 220-224:
`{'questao': ..., 'alternativa': ..., 'distancia': ...}` (squared distance). -/
structure Match where
  questao : ℕ
  alternativa : Char
  distancia : ℤ
deriving DecidableEq

/-- `distancia < menor_distancia` (line 202): `menor_distancia` starts at
`float('inf')` (modelled as `none`) and holds the distance of the current
best match otherwise. -/
def menor_que (acc : Option Match) (d : ℤ) : Prop :=
  match acc with
  | none => True
  | some m => d < m.distancia

instance decMenorQue (acc : Option Match) (d : ℤ) : Decidable (menor_que acc d) :=
  match acc with
  | none => isTrue trivial
  | some m => inferInstanceAs (Decidable (d < m.distancia))

/-- Build the `melhor_match` record for a reference point (lines 220-224). -/
def matchOf (N : ℕ) (p : ℤ × ℤ) (ref : RefAlt) : Match :=
  { questao := questao_numero N ref.coluna ref.questao_na_coluna,
    alternativa := ref.alternativa,
    distancia := dist_sq p ref.ponto }

/-- One iteration of the inner loop of `map_circles_to_answers`
(lines 197-224): the running `(menor_distancia, melhor_match)` state is
updated only when the reference point is within tolerance, strictly closer
than the current best, within its column's question count, and its computed
question number is at most `total_questoes`. -/
def step (N : ℕ) (p : ℤ × ℤ) (acc : Option Match) (ref : RefAlt) : Option Match :=
  if menor_que acc (dist_sq p ref.ponto) ∧
      dist_sq p ref.ponto ≤ tolerancia * tolerancia then
    if ref.questao_na_coluna < questoes_nesta_coluna N ref.coluna then
      if questao_numero N ref.coluna ref.questao_na_coluna ≤ N then
        some (matchOf N p ref)
      else acc
    else acc
  else acc

/-- The inner loop of `map_circles_to_answers` over all reference points
(lines 194-224), producing the final `melhor_match` for one circle. -/
def find_melhor_match (N : ℕ) (p : ℤ × ℤ) : Option Match :=
  pontos_referencia_alternativas.foldl (step N p) none

/-- Lines 226-228: `if melhor_match and melhor_match['questao'] not in
marcacoes_detectadas:` record `questao → alternativa`; otherwise the circle
is dropped. -/
def registra_marcacao (N : ℕ) (marcacoes : List (ℕ × Char)) (c : ℤ × ℤ × ℤ) :
    List (ℕ × Char) :=
  match find_melhor_match N (c.1, c.2.1) with
  | some melhor =>
      if melhor.questao ∈ marcacoes.map Prod.fst then marcacoes
      else marcacoes ++ [(melhor.questao, melhor.alternativa)]
  | none => marcacoes

/-- `map_circles_to_answers` (lines 182-230): fold over the detected circles
in emission order, starting from the empty dict.  The resulting `AnswerMap`
is an association list in insertion order. -/
def map_circles_to_answers (circles : List (ℤ × ℤ × ℤ)) (N : ℕ) :
    List (ℕ × Char) :=
  circles.foldl (registra_marcacao N) []

/-- The detector parameters set in `__init__` (lines 70-78) that the
validation logic can read: `darkness_threshold = 120` and
`circularity_threshold = 0.6`. -/
structure DetectorConfig where
  darkness_threshold : ℚ
  circularity_threshold : ℚ
deriving DecidableEq

/-- The values of lines 77-78. -/
def detectorConfig : DetectorConfig :=
  { darkness_threshold := 120, circularity_threshold := 3 / 5 }

/-- `validate_black_circle` (lines 130-140): the mean pixel intensity over
the disk mask (`cv2.mean(image, mask)[0]`, here the exact rational mean of
the masked pixel values) must satisfy `mean_intensity < darkness_threshold`. -/
def validate_black_circle (cfg : DetectorConfig) (disk_pixels : List ℕ) : Bool :=
  decide ((disk_pixels.sum : ℚ) / (disk_pixels.length : ℚ) < cfg.darkness_threshold)

/-- A Hough candidate together with the pixel values its disk mask selects
from the image (`detect_circles_in_region`, lines 100-128; the geometry of
mask rendering is external CV library behaviour and is abstracted to the
resulting pixel sample). -/
structure CandidatoCirculo where
  centro : ℤ × ℤ
  raio : ℤ
  disk_pixels : List ℕ
deriving DecidableEq

/-- The validation-then-mapping portion of the pipeline: candidates are kept
iff `validate_black_circle` accepts them (line 124-125) and the kept circles
are passed to `map_circles_to_answers` (line 259). -/
def validar_e_mapear (cfg : DetectorConfig) (cands : List CandidatoCirculo)
    (N : ℕ) : List (ℕ × Char) :=
  map_circles_to_answers
    ((cands.filter fun cd => validate_black_circle cfg cd.disk_pixels).map
      fun cd => (cd.centro.1, cd.centro.2, cd.raio)) N

/-- Caller-visible outcome of `detectar_marcacoes`: whether `st.error` was
called, and the returned dict. -/
structure DetectRun where
  error_shown : Bool
  result : List (ℕ × Char)
deriving DecidableEq

/-- `detectar_marcacoes` (lines 232-265).  `decoded = none` models
`cv2.imread` returning `None`: the function raises
`ValueError("Não foi possível carregar a imagem")`, which is caught by the
function's own `except Exception` handler (lines 263-265); the handler calls
`st.error` and returns `{}`.  On a decoded image, resizing, preprocessing and
per-region Hough detection are external CV library calls, abstracted into the
`hough` oracle producing the concatenated circle list of lines 251-256;
the result is `map_circles_to_answers` on that list. -/
def detectar_marcacoes {α : Type} (decoded : Option α)
    (hough : α → List (ℤ × ℤ × ℤ)) (N : ℕ) : DetectRun :=
  match decoded with
  | none => { error_shown := true, result := [] }
  | some img => { error_shown := false, result := map_circles_to_answers (hough img) N }

/-- A reference point is a usable match for circle center `p` under
`total_questoes = N`: it lies within the tolerance radius (line 202), its
in-column index is below the column's question count (line 209) and its
computed question number is at most `N` (line 218). -/
def validInTol (N : ℕ) (p : ℤ × ℤ) (ref : RefAlt) : Prop :=
  dist_sq p ref.ponto ≤ tolerancia * tolerancia ∧
  ref.questao_na_coluna < questoes_nesta_coluna N ref.coluna ∧
  questao_numero N ref.coluna ref.questao_na_coluna ≤ N

instance decValidInTol (N : ℕ) (p : ℤ × ℤ) (ref : RefAlt) :
    Decidable (validInTol N p ref) :=
  inferInstanceAs (Decidable (_ ∧ _ ∧ _))

/-- Written from the claim's words, to be compared with the source behaviour:
one step of keeping the nearest point within the tolerance radius, with no
validity filtering (first-encountered wins distance ties). -/
def claim_step (p : ℤ × ℤ) (acc : Option RefAlt) (ref : RefAlt) : Option RefAlt :=
  if dist_sq p ref.ponto ≤ tolerancia * tolerancia then
    match acc with
    | none => some ref
    | some b => if dist_sq p ref.ponto < dist_sq p b.ponto then some ref else acc
  else acc

/-- Written from the claim's words, to be compared with the source behaviour:
the overall nearest reference point to `p` among those within the tolerance
radius, with no validity filtering. -/
def claim_nearest_in_tol (p : ℤ × ℤ) : Option RefAlt :=
  pontos_referencia_alternativas.foldl (claim_step p) none

/-- The per-circle resolution of `map_circles_to_answers`, as the
`(questao, alternativa)` pair that would be recorded for a circle if its
question number is still free. -/
def resolve_circle (N : ℕ) (c : ℤ × ℤ × ℤ) : Option (ℕ × Char) :=
  (find_melhor_match N (c.1, c.2.1)).map fun m => (m.questao, m.alternativa)

/-- Insert an entry into the answer dict only when its question key is
absent (lines 226-228). -/
def add_marcacao (marc : List (ℕ × Char)) (e : ℕ × Char) : List (ℕ × Char) :=
  if e.1 ∈ marc.map Prod.fst then marc else marc ++ [e]

/-- The key triple of an `'alternativas'` entry: the structured form of the
dict key string `f"{col_idx}_{q}_{alternativa}"`. -/
def ref_alt_keys : List (ℕ × ℕ × Char) :=
  pontos_referencia_alternativas.map fun r =>
    (r.coluna, r.questao_na_coluna, r.alternativa)

/-- All 625 key triples (column 0-4, in-column index 0-24, letter A-E), in
the same enumeration order the construction uses. -/
def all_triples : List (ℕ × ℕ × Char) :=
  (List.range 5).flatMap fun c =>
    (List.range 25).flatMap fun q =>
      alternativas.map fun a => (c, q, a)

/-- Proof-side inverse of `questao_numero`: the `(coluna, questao_na_coluna)`
pair whose block of the 1..N numbering contains `k`.  This is proof machinery
for the bijectivity claim, not part of the embedding. -/
def decode_questao (N k : ℕ) : ℕ × ℕ :=
  if k - 1 < N / 5 + min 1 (N % 5) then (0, k - 1)
  else if k - 1 < 2 * (N / 5) + min 2 (N % 5) then
    (1, k - 1 - (N / 5 + min 1 (N % 5)))
  else if k - 1 < 3 * (N / 5) + min 3 (N % 5) then
    (2, k - 1 - (2 * (N / 5) + min 2 (N % 5)))
  else if k - 1 < 4 * (N / 5) + min 4 (N % 5) then
    (3, k - 1 - (3 * (N / 5) + min 3 (N % 5)))
  else (4, k - 1 - (4 * (N / 5) + min 4 (N % 5)))

/-- Invariant of the inner fold of `map_circles_to_answers`: after the
reference points in `seen` have been processed, `acc` is `none` exactly when
no processed point is a usable match, and otherwise holds the usable match of
minimal (squared) distance among the processed points. -/
def Best (N : ℕ) (p : ℤ × ℤ) (seen : List RefAlt) (acc : Option Match) : Prop :=
  (acc = none → ∀ ref ∈ seen, ¬ validInTol N p ref) ∧
  ∀ m, acc = some m →
    (∃ ref ∈ seen, validInTol N p ref ∧ m = matchOf N p ref) ∧
    ∀ ref ∈ seen, validInTol N p ref → m.distancia ≤ dist_sq p ref.ponto

lemma best_nil (N : ℕ) (p : ℤ × ℤ) : Best N p [] none :=
  ⟨fun _ ref hr => absurd hr (List.not_mem_nil ref),
   fun _ hm => Option.noConfusion hm⟩

lemma best_step (N : ℕ) (p : ℤ × ℤ) (seen : List RefAlt) (acc : Option Match)
    (r : RefAlt) (h : Best N p seen acc) :
    Best N p (seen ++ [r]) (step N p acc r) := by
  obtain ⟨hnone, hsome⟩ := h
  unfold step
  split_ifs with h1 h2 h3
  · -- all three gates pass: the accumulator becomes `matchOf N p r`
    refine ⟨fun heq => Option.noConfusion heq, fun m hm => ?_⟩
    injection hm with hm
    subst hm
    refine ⟨⟨r, by simp, ⟨h1.2, h2, h3⟩, rfl⟩, ?_⟩
    intro ref href hv
    rcases List.mem_append.mp href with hseen | hr
    · cases hacc : acc with
      | none => exact absurd hv (hnone hacc ref hseen)
      | some m0 =>
        have hmin := (hsome m0 hacc).2 ref hseen hv
        have hlt : dist_sq p r.ponto < m0.distancia := by
          have := h1.1
          rw [hacc] at this
          exact this
        simp only [matchOf]
        omega
    · have : ref = r := by simpa using hr
      subst this
      simp [matchOf]
  · -- within tolerance and closer, in-column index valid, but number > N
    refine ⟨fun heq => ?_, fun m hm => ?_⟩
    · intro ref href
      rcases List.mem_append.mp href with hseen | hr
      · exact hnone heq ref hseen
      · have : ref = r := by simpa using hr
        subst this
        intro hv
        exact h3 hv.2.2
    · obtain ⟨⟨ref, hrm, hrv, hre⟩, hmin⟩ := hsome m hm
      refine ⟨⟨ref, List.mem_append_left _ hrm, hrv, hre⟩, ?_⟩
      intro ref2 href2 hv2
      rcases List.mem_append.mp href2 with hseen | hr
      · exact hmin ref2 hseen hv2
      · have : ref2 = r := by simpa using hr
        subst this
        exact absurd hv2.2.2 h3
  · -- within tolerance and closer, but in-column index out of range
    refine ⟨fun heq => ?_, fun m hm => ?_⟩
    · intro ref href
      rcases List.mem_append.mp href with hseen | hr
      · exact hnone heq ref hseen
      · have : ref = r := by simpa using hr
        subst this
        intro hv
        exact h2 hv.2.1
    · obtain ⟨⟨ref, hrm, hrv, hre⟩, hmin⟩ := hsome m hm
      refine ⟨⟨ref, List.mem_append_left _ hrm, hrv, hre⟩, ?_⟩
      intro ref2 href2 hv2
      rcases List.mem_append.mp href2 with hseen | hr
      · exact hmin ref2 hseen hv2
      · have : ref2 = r := by simpa using hr
        subst this
        exact absurd hv2.2.1 h2
  · -- first gate fails: not closer than the current best, or out of tolerance
    refine ⟨fun heq => ?_, fun m hm => ?_⟩
    · intro ref href
      rcases List.mem_append.mp href with hseen | hr
      · exact hnone heq ref hseen
      · have : ref = r := by simpa using hr
        subst this
        intro hv
        apply h1
        constructor
        · rw [heq]
          trivial
        · exact hv.1
    · obtain ⟨⟨ref, hrm, hrv, hre⟩, hmin⟩ := hsome m hm
      refine ⟨⟨ref, List.mem_append_left _ hrm, hrv, hre⟩, ?_⟩
      intro ref2 href2 hv2
      rcases List.mem_append.mp href2 with hseen | hr
      · exact hmin ref2 hseen hv2
      · have : ref2 = r := by simpa using hr
        subst this
        have hnl : ¬ menor_que acc (dist_sq p ref2.ponto) := fun hmq => h1 ⟨hmq, hv2.1⟩
        rw [hm] at hnl
        simp only [menor_que, not_lt] at hnl
        exact hnl

lemma best_foldl (N : ℕ) (p : ℤ × ℤ) :
    ∀ (l seen : List RefAlt) (acc : Option Match),
      Best N p seen acc → Best N p (seen ++ l) (l.foldl (step N p) acc)
  | [], seen, acc, h => by simpa using h
  | r :: l, seen, acc, h => by
    have h2 := best_foldl N p l (seen ++ [r]) (step N p acc r)
      (best_step N p seen acc r h)
    simpa using h2

lemma best_find_melhor_match (N : ℕ) (p : ℤ × ℤ) :
    Best N p pontos_referencia_alternativas (find_melhor_match N p) := by
  have h := best_foldl N p pontos_referencia_alternativas [] none (best_nil N p)
  simpa [find_melhor_match] using h

lemma foldl_split {α β : Type} (f : β → α → β) (b : β) (l : List α) (n : ℕ) :
    l.foldl f b = (l.drop n).foldl f ((l.take n).foldl f b) := by
  conv_lhs => rw [← List.take_append_drop n l]
  rw [List.foldl_append]

/-- Evaluate a fold over the 625 reference points in three pieces, keeping
each piece small enough for kernel evaluation. -/
lemma foldl_pontos_chunks {β : Type} (f : β → RefAlt → β) (b a1 a2 a3 : β)
    (h1 : (pontos_referencia_alternativas.take 125).foldl f b = a1)
    (h2 : ((pontos_referencia_alternativas.drop 125).take 250).foldl f a1 = a2)
    (h3 : ((pontos_referencia_alternativas.drop 125).drop 250).foldl f a2 = a3) :
    pontos_referencia_alternativas.foldl f b = a3 := by
  rw [foldl_split f b pontos_referencia_alternativas 125, h1,
      foldl_split f a1 (pontos_referencia_alternativas.drop 125) 250, h2, h3]

lemma eval_find_4_614 : find_melhor_match 4 (842, 614) = some ⟨1, 'A', 576⟩ := by
  unfold find_melhor_match
  exact foldl_pontos_chunks (step 4 (842, 614)) none (some ⟨1, 'A', 576⟩)
    (some ⟨1, 'A', 576⟩) (some ⟨1, 'A', 576⟩) (by decide) (by decide) (by decide)

lemma eval_find_60_560 : find_melhor_match 60 (842, 560) = some ⟨1, 'A', 900⟩ := by
  unfold find_melhor_match
  exact foldl_pontos_chunks (step 60 (842, 560)) none (some ⟨1, 'A', 900⟩)
    (some ⟨1, 'A', 900⟩) (some ⟨1, 'A', 900⟩) (by decide) (by decide) (by decide)

lemma eval_find_60_559 : find_melhor_match 60 (842, 559) = none := by
  unfold find_melhor_match
  exact foldl_pontos_chunks (step 60 (842, 559)) none none none none
    (by decide) (by decide) (by decide)

lemma eval_find_60_590 : find_melhor_match 60 (842, 590) = some ⟨1, 'A', 0⟩ := by
  unfold find_melhor_match
  exact foldl_pontos_chunks (step 60 (842, 590)) none (some ⟨1, 'A', 0⟩)
    (some ⟨1, 'A', 0⟩) (some ⟨1, 'A', 0⟩) (by decide) (by decide) (by decide)

lemma map_circles_single (c : ℤ × ℤ × ℤ) (N : ℕ) (m : Match)
    (h : find_melhor_match N (c.1, c.2.1) = some m) :
    map_circles_to_answers [c] N = [(m.questao, m.alternativa)] := by
  unfold map_circles_to_answers
  rw [List.foldl_cons, List.foldl_nil]
  unfold registra_marcacao
  rw [h]
  simp

lemma map_circles_single_none (c : ℤ × ℤ × ℤ) (N : ℕ)
    (h : find_melhor_match N (c.1, c.2.1) = none) :
    map_circles_to_answers [c] N = [] := by
  unfold map_circles_to_answers
  rw [List.foldl_cons, List.foldl_nil]
  unfold registra_marcacao
  rw [h]

lemma eval_claim_nearest_614 :
    claim_nearest_in_tol (842, 614) =
      some ⟨(842, 634), 0, 1, 'A'⟩ := by
  unfold claim_nearest_in_tol
  exact foldl_pontos_chunks (claim_step (842, 614)) none
    (some ⟨(842, 634), 0, 1, 'A'⟩) (some ⟨(842, 634), 0, 1, 'A'⟩)
    (some ⟨(842, 634), 0, 1, 'A'⟩) (by decide) (by decide) (by decide)

/-- C1 (counterexample): with `total_questoes = 4` column 0 holds a single
question, so the row-1 reference points of column 0 are invalid.  The circle
centered at `(842, 614)` has the invalid point `(842, 634)` (column 0, row 1,
alternative A, squared distance 400) as its overall nearest reference point
within tolerance, yet the mapper still records an answer — the farther valid
point `(842, 590)` (question 1, alternative A, squared distance 576) is
substituted, contradicting the claim that such a circle produces no
AnswerMap entry. -/
theorem c1_counterexample :
    claim_nearest_in_tol (842, 614) =
      some { ponto := (842, 634), coluna := 0, questao_na_coluna := 1,
             alternativa := 'A' } ∧
    ¬ (1 < questoes_nesta_coluna 4 0) ∧
    map_circles_to_answers [(842, 614, 10)] 4 = [(1, 'A')] := by
  exact ⟨eval_claim_nearest_614, by decide,
    map_circles_single (842, 614, 10) 4 ⟨1, 'A', 576⟩ eval_find_4_614⟩

/-- C1 (amended): per validated circle the mapper keeps the minimum-distance
reference point among those that are within the 30px tolerance AND pass the
question-validity checks; it returns no match exactly when no such point
exists.  In particular an invalid nearest point does not block a farther
valid point within tolerance. -/
theorem c1_amended (N : ℕ) (p : ℤ × ℤ) :
    (find_melhor_match N p = none ↔
      ∀ ref ∈ pontos_referencia_alternativas, ¬ validInTol N p ref) ∧
    ∀ m, find_melhor_match N p = some m →
      (∃ ref ∈ pontos_referencia_alternativas,
        validInTol N p ref ∧ m = matchOf N p ref) ∧
      ∀ ref ∈ pontos_referencia_alternativas,
        validInTol N p ref → m.distancia ≤ dist_sq p ref.ponto := by
  have hb := best_find_melhor_match N p
  refine ⟨⟨hb.1, fun hall => ?_⟩, hb.2⟩
  cases hfm : find_melhor_match N p with
  | none => rfl
  | some m =>
    obtain ⟨⟨ref, hrm, hrv, _⟩, _⟩ := hb.2 m hfm
    exact absurd hrv (hall ref hrm)

/-- C1 (witness): at `total_questoes = 60` and circle center `(842, 590)`
the inner loop returns question 1, alternative A at squared distance 0, and
the amended theorem applies to it, giving minimality against the reference
point `(842, 590)` itself. -/
theorem c1_amended_witness :
    (Match.mk 1 'A' 0).distancia ≤
      dist_sq (842, 590) (RefAlt.mk (842, 590) 0 0 'A').ponto :=
  ((c1_amended 60 (842, 590)).2 ⟨1, 'A', 0⟩ eval_find_60_590).2
    ⟨(842, 590), 0, 0, 'A'⟩ (by decide) (by decide)

/-- C4: the tolerance boundary is inclusive at exactly 30 pixels.  A circle
centered 30px below the question-1/alternative-A reference point `(842, 590)`
(squared distance 900 = 30 * 30) is matched to it and produces `{1: 'A'}`;
moved to 31px (squared distance 961) it is not matched and the map is empty.
Moreover no reference point at distance 31 (squared distance 961) can ever
update the running best match. -/
theorem c4 :
    dist_sq (842, 560) (842, 590) = tolerancia * tolerancia ∧
    map_circles_to_answers [(842, 560, 10)] 60 = [(1, 'A')] ∧
    dist_sq (842, 559) (842, 590) = 961 ∧
    map_circles_to_answers [(842, 559, 10)] 60 = [] ∧
    ∀ (N : ℕ) (p : ℤ × ℤ) (ref : RefAlt) (acc : Option Match),
      dist_sq p ref.ponto = 961 → step N p acc ref = acc := by
  refine ⟨by decide,
    map_circles_single (842, 560, 10) 60 ⟨1, 'A', 900⟩ eval_find_60_560,
    by decide,
    map_circles_single_none (842, 559, 10) 60 eval_find_60_559, ?_⟩
  intro N p ref acc hd
  unfold step
  rw [hd]
  simp [tolerancia]

/-- C4 (witness): the 31px-never-matches component of `c4` applied to the
concrete reference point `(842, 590)` and circle center `(842, 559)`. -/
theorem c4_witness :
    dist_sq (842, 559) ((RefAlt.mk (842, 590) 0 0 'A').ponto) = 961 ∧
    step 60 (842, 559) none (RefAlt.mk (842, 590) 0 0 'A') = none :=
  ⟨by decide, c4.2.2.2.2 60 (842, 559) (RefAlt.mk (842, 590) 0 0 'A') none
    (by decide)⟩

lemma registra_eq_add (N : ℕ) (marc : List (ℕ × Char)) (c : ℤ × ℤ × ℤ) :
    registra_marcacao N marc c =
      match resolve_circle N c with
      | some e => add_marcacao marc e
      | none => marc := by
  unfold registra_marcacao resolve_circle add_marcacao
  cases find_melhor_match N (c.1, c.2.1) <;> simp

lemma map_circles_eq_filterMap (circles : List (ℤ × ℤ × ℤ)) (N : ℕ) :
    map_circles_to_answers circles N =
      (circles.filterMap (resolve_circle N)).foldl add_marcacao [] := by
  unfold map_circles_to_answers
  suffices h : ∀ (l : List (ℤ × ℤ × ℤ)) (acc : List (ℕ × Char)),
      l.foldl (registra_marcacao N) acc =
        (l.filterMap (resolve_circle N)).foldl add_marcacao acc by
    exact h circles []
  intro l
  induction l with
  | nil => intro acc; simp
  | cons c t ih =>
    intro acc
    rw [List.foldl_cons, List.filterMap_cons, registra_eq_add]
    cases h : resolve_circle N c with
    | none => simpa [h] using ih acc
    | some e => simpa [h] using ih (add_marcacao acc e)

lemma foldl_add_nodup :
    ∀ (l acc : List (ℕ × Char)), (acc.map Prod.fst).Nodup →
      ((l.foldl add_marcacao acc).map Prod.fst).Nodup
  | [], acc, h => by simpa using h
  | e :: t, acc, h => by
    rw [List.foldl_cons]
    apply foldl_add_nodup t
    unfold add_marcacao
    split_ifs with hk
    · exact h
    · have hnm : ∀ x : Char, (e.1, x) ∉ acc := fun x hmem =>
        hk (List.mem_map.mpr ⟨(e.1, x), hmem, rfl⟩)
      simpa [List.nodup_append] using ⟨h, hnm⟩

lemma foldl_add_mem (q : ℕ) (a : Char) :
    ∀ (l acc : List (ℕ × Char)),
      ((q, a) ∈ l.foldl add_marcacao acc ↔
        (q, a) ∈ acc ∨
          (q ∉ acc.map Prod.fst ∧ l.find? (fun e => e.1 == q) = some (q, a)))
  | [], acc => by simp
  | e :: t, acc => by
    rw [List.foldl_cons, foldl_add_mem q a t]
    unfold add_marcacao
    by_cases heq : e.1 = q
    · by_cases hk : q ∈ acc.map Prod.fst
      · have : e.1 ∈ acc.map Prod.fst := by rw [heq]; exact hk
        simp only [this, if_true]
        have hfind : (e :: t).find? (fun x => x.1 == q) = some e := by
          simp [List.find?_cons, heq]
        rw [hfind]
        constructor
        · rintro (hmem | ⟨hq, _⟩)
          · exact Or.inl hmem
          · exact absurd hk hq
        · rintro (hmem | ⟨hq, _⟩)
          · exact Or.inl hmem
          · exact absurd hk hq
      · have : e.1 ∉ acc.map Prod.fst := by rw [heq]; exact hk
        simp only [this, if_false]
        have hfind : (e :: t).find? (fun x => x.1 == q) = some e := by
          simp [List.find?_cons, heq]
        rw [hfind]
        have hmemacc : (q, a) ∉ acc := fun hmem =>
          hk (List.mem_map.mpr ⟨(q, a), hmem, rfl⟩)
        have hkeys : (q ∈ (acc ++ [e]).map Prod.fst) := by
          simp [heq]
        constructor
        · rintro (hmem | ⟨hq, _⟩)
          · rcases List.mem_append.mp hmem with h1 | h2
            · exact absurd h1 hmemacc
            · right
              refine ⟨hk, ?_⟩
              have : (q, a) = e := by simpa using h2
              rw [this]
          · exact absurd hkeys hq
        · rintro (hmem | ⟨_, hfe⟩)
          · exact absurd hmem hmemacc
          · left
            apply List.mem_append_right
            have : e = (q, a) := Option.some.inj hfe
            simp [this]
    · have hfind : (e :: t).find? (fun x => x.1 == q) = t.find? (fun x => x.1 == q) := by
        simp [List.find?_cons, heq]
      rw [hfind]
      split_ifs with hk
      · rfl
      · have hne : (q, a) ≠ e := fun h => heq (by rw [← h])
        have hkeys : q ∈ (acc ++ [e]).map Prod.fst ↔ q ∈ acc.map Prod.fst := by
          simp [eq_comm, Ne.symm heq]
        constructor
        · rintro (hmem | ⟨hq, hf⟩)
          · rcases List.mem_append.mp hmem with h1 | h2
            · exact Or.inl h1
            · exact absurd (by simpa using h2) hne
          · exact Or.inr ⟨fun hmemk => hq (hkeys.mpr hmemk), hf⟩
        · rintro (hmem | ⟨hq, hf⟩)
          · exact Or.inl (List.mem_append_left _ hmem)
          · exact Or.inr ⟨fun hmemk => hq (hkeys.mp hmemk), hf⟩

/-- C3: for every circle list and `total_questoes`, every question number
occurs at most once in the AnswerMap (the keys are duplicate-free), and an
entry `(q, a)` is present exactly when the FIRST circle in processing order
that resolves within tolerance to question `q` resolves it to alternative
`a`: first-processed-wins, later circles for the same question are dropped. -/
theorem c3 (circles : List (ℤ × ℤ × ℤ)) (N : ℕ) (q : ℕ) (a : Char) :
    ((map_circles_to_answers circles N).map Prod.fst).Nodup ∧
    ((q, a) ∈ map_circles_to_answers circles N ↔
      (circles.filterMap (resolve_circle N)).find? (fun e => e.1 == q) =
        some (q, a)) := by
  constructor
  · rw [map_circles_eq_filterMap]
    exact foldl_add_nodup _ [] (by simp)
  · rw [map_circles_eq_filterMap, foldl_add_mem]
    simp

lemma questao_numero_eq (N c q : ℕ) :
    questao_numero N c q = c * (N / 5) + q + 1 + min c (N % 5) := by
  unfold questao_numero questoes_por_coluna resto
  split_ifs with hc
  · rfl
  · have h0 : c = 0 := by omega
    subst h0
    simp

lemma questoes_nesta_coluna_eq (N c : ℕ) :
    questoes_nesta_coluna N c = N / 5 + (if c < N % 5 then 1 else 0) := rfl

/-- C5: for every `total_questoes` N ≥ 1 the question-numbering function is a
bijection from the valid (column, in-column index) pairs onto `{1, ..., N}`;
in particular every valid pair's computed number lies in `{1, ..., N}`. -/
theorem c5 (N : ℕ) (_hN : 1 ≤ N) :
    Set.BijOn (fun p : ℕ × ℕ => questao_numero N p.1 p.2)
      {p : ℕ × ℕ | p.1 < 5 ∧ p.2 < questoes_nesta_coluna N p.1}
      (Set.Icc 1 N) := by
  refine ⟨?_, ?_, ?_⟩
  · rintro ⟨c, q⟩ ⟨hc, hq⟩
    simp only [Set.mem_Icc, questao_numero_eq]
    rw [questoes_nesta_coluna_eq] at hq
    interval_cases c <;> split_ifs at hq <;> omega
  · rintro ⟨c, q⟩ ⟨hc, hq⟩ ⟨c2, q2⟩ ⟨hc2, hq2⟩ heq
    simp only [questao_numero_eq] at heq
    rw [questoes_nesta_coluna_eq] at hq hq2
    simp only [Prod.mk.injEq]
    interval_cases c <;> interval_cases c2 <;> split_ifs at hq hq2 <;> omega
  · intro k hk
    simp only [Set.mem_Icc] at hk
    refine ⟨decode_questao N k, ?_, ?_⟩
    · simp only [Set.mem_setOf_eq, questoes_nesta_coluna_eq]
      unfold decode_questao
      split_ifs <;> constructor <;> simp_all <;> omega
    · simp only [questao_numero_eq]
      unfold decode_questao
      split_ifs <;> simp_all <;> omega

/-- C5 (witness): the bijection instantiated at `total_questoes = 7`. -/
theorem c5_witness :
    1 ≤ 7 ∧
    Set.BijOn (fun p : ℕ × ℕ => questao_numero 7 p.1 p.2)
      {p : ℕ × ℕ | p.1 < 5 ∧ p.2 < questoes_nesta_coluna 7 p.1}
      (Set.Icc 1 7) :=
  ⟨by decide, c5 7 (by decide)⟩

/-- C6: for every `total_questoes` N ≥ 1, each of the five columns receives
either `N div 5` or `N div 5 + 1` questions, the extra question going exactly
to the columns with index < `N mod 5`, and the five column counts sum to N. -/
theorem c6 (N : ℕ) (_hN : 1 ≤ N) :
    (∀ c, c < 5 →
      (questoes_nesta_coluna N c = N / 5 ∨
        questoes_nesta_coluna N c = N / 5 + 1) ∧
      (questoes_nesta_coluna N c = N / 5 + 1 ↔ c < N % 5)) ∧
    ((List.range 5).map (questoes_nesta_coluna N)).sum = N := by
  constructor
  · intro c hc
    rw [questoes_nesta_coluna_eq]
    split_ifs with h <;> constructor <;> simp_all
  · have hr : List.range 5 = [0, 1, 2, 3, 4] := rfl
    rw [hr]
    simp only [List.map_cons, List.map_nil, List.sum_cons, List.sum_nil,
      questoes_nesta_coluna_eq]
    split_ifs <;> omega

/-- C6 (witness): the distribution instantiated at `total_questoes = 7`,
column 0 (extra question) and column 3 (no extra question). -/
theorem c6_witness :
    (questoes_nesta_coluna 7 0 = 7 / 5 + 1 ↔ 0 < 7 % 5) ∧
    (questoes_nesta_coluna 7 3 = 7 / 5 + 1 ↔ 3 < 7 % 5) ∧
    ((List.range 5).map (questoes_nesta_coluna 7)).sum = 7 :=
  ⟨((c6 7 (by decide)).1 0 (by decide)).2, ((c6 7 (by decide)).1 3 (by decide)).2,
    (c6 7 (by decide)).2⟩

/-- C2 (counterexample): when the image cannot be decoded the entry point
does NOT surface a hard failure to the caller: it returns the empty
AnswerMap, the very same caller-visible value a successful run on an image
with no detected circles returns.  (The failure is signalled only through
the `st.error` display, recorded here in the `error_shown` field.) -/
theorem c2_counterexample :
    (detectar_marcacoes (none : Option Unit) (fun _ => []) 60).result = [] ∧
    (detectar_marcacoes (none : Option Unit) (fun _ => []) 60).result =
      (detectar_marcacoes (some ()) (fun _ => []) 60).result :=
  ⟨rfl, rfl⟩

/-- C2 (amended): on an undecodable input `detectar_marcacoes` raises
`ValueError` internally, but its own broad `except` handler catches it,
reports through `st.error`, and returns the empty dict to the caller; on a
decoded image no error is shown and the result is `map_circles_to_answers`
of the detected circles. -/
theorem c2_amended {α : Type} (hough : α → List (ℤ × ℤ × ℤ)) (N : ℕ) :
    detectar_marcacoes (none : Option α) hough N =
      { error_shown := true, result := [] } ∧
    ∀ img : α, detectar_marcacoes (some img) hough N =
      { error_shown := false,
        result := map_circles_to_answers (hough img) N } :=
  ⟨rfl, fun _ => rfl⟩

/-- C7 (counterexample): a candidate disk whose mean intensity is exactly
120 is REJECTED by `validate_black_circle` (the source test is the strict
`mean_intensity < self.darkness_threshold`), contradicting the claim that
the threshold is an inclusive maximum. -/
theorem c7_counterexample :
    validate_black_circle detectorConfig [120] = false ∧
    ((([120] : List ℕ).sum : ℚ) / (([120] : List ℕ).length : ℚ)) = 120 := by
  constructor
  · unfold validate_black_circle detectorConfig
    norm_num
  · norm_num

/-- C7 (amended): the darkness threshold is a strict (exclusive) bound: a
candidate is accepted iff its mean disk intensity is strictly below 120,
i.e. iff the pixel sum is strictly below 120 times the pixel count; a mean
of exactly 120 fails validation. -/
theorem c7_amended (pixels : List ℕ) (h : pixels ≠ []) :
    validate_black_circle detectorConfig pixels = true ↔
      (pixels.sum : ℚ) < 120 * (pixels.length : ℚ) := by
  unfold validate_black_circle detectorConfig
  simp only [decide_eq_true_eq]
  have hlen : (0 : ℚ) < (pixels.length : ℚ) := by
    exact_mod_cast List.length_pos.mpr h
  rw [div_lt_iff₀ hlen]

/-- C7 (witness): the amended theorem applied to the one-pixel disk `[119]`,
which is accepted. -/
theorem c7_amended_witness :
    ([119] : List ℕ) ≠ [] ∧
    (validate_black_circle detectorConfig [119] = true ↔
      ((([119] : List ℕ).sum : ℚ) < 120 * (([119] : List ℕ).length : ℚ))) :=
  ⟨by decide, c7_amended [119] (by decide)⟩

/-- C8: the engine's behaviour is independent of `circularity_threshold`:
two runs whose configurations differ only in that field produce identical
validation verdicts and an identical AnswerMap — the parameter is never read
by the validation logic. -/
theorem c8 (cfg : DetectorConfig) (t1 t2 : ℚ) (pixels : List ℕ)
    (cands : List CandidatoCirculo) (N : ℕ) :
    validate_black_circle { cfg with circularity_threshold := t1 } pixels =
      validate_black_circle { cfg with circularity_threshold := t2 } pixels ∧
    validar_e_mapear { cfg with circularity_threshold := t1 } cands N =
      validar_e_mapear { cfg with circularity_threshold := t2 } cands N :=
  ⟨rfl, rfl⟩

/-- C9: finding nothing is never an error: for every `total_questoes` the
mapper (and the validate-then-map pipeline) is a total function that returns
the empty AnswerMap on an empty circle/candidate list — no exception path
exists in the embedding. -/
theorem c9 (N : ℕ) (cfg : DetectorConfig) :
    map_circles_to_answers [] N = [] ∧ validar_e_mapear cfg [] N = [] :=
  ⟨rfl, rfl⟩

lemma keys_eq : ref_alt_keys = all_triples := by decide

lemma all_triples_nodup : all_triples.Nodup := by
  unfold all_triples
  rw [List.nodup_flatMap]
  constructor
  · intro c _
    rw [List.nodup_flatMap]
    constructor
    · intro q _
      refine List.Nodup.map ?_ (by decide)
      intro a b hab
      simpa using hab
    · refine (List.pairwise_lt_range 25).imp ?_
      intro q1 q2 hlt x hx1 hx2
      simp only [List.mem_map] at hx1 hx2
      obtain ⟨a1, _, rfl⟩ := hx1
      obtain ⟨a2, _, h2⟩ := hx2
      have : q2 = q1 := congrArg (fun t => t.2.1) h2
      omega
  · refine (List.pairwise_lt_range 5).imp ?_
    intro c1 c2 hlt x hx1 hx2
    simp only [List.mem_flatMap, List.mem_map] at hx1 hx2
    obtain ⟨q1, _, a1, _, rfl⟩ := hx1
    obtain ⟨q2, _, a2, _, h2⟩ := hx2
    have : c2 = c1 := congrArg (fun t => t.1) h2
    omega

lemma nodup_filter_eq_one {α : Type} [DecidableEq α] :
    ∀ (l : List α) (x : α), l.Nodup → x ∈ l →
      (l.filter fun e => decide (e = x)).length = 1
  | [], x, _, hm => absurd hm (List.not_mem_nil x)
  | a :: t, x, hn, hm => by
    rw [List.filter_cons]
    by_cases hax : a = x
    · subst hax
      have hnt : a ∉ t := (List.nodup_cons.mp hn).1
      have hft : t.filter (fun e => decide (e = a)) = [] := by
        rw [List.filter_eq_nil_iff]
        intro b hb hba
        rw [decide_eq_true_eq] at hba
        exact hnt (hba ▸ hb)
      simp [hft]
    · have hmt : x ∈ t := by
        rcases List.mem_cons.mp hm with h1 | h2
        · exact absurd h1.symm hax
        · exact h2
      have hd : (decide (a = x)) = false := by simp [hax]
      rw [hd]
      simp only [Bool.false_eq_true, if_false]
      exact nodup_filter_eq_one t x (List.nodup_cons.mp hn).2 hmt

lemma mem_all_triples {c q : ℕ} {a : Char} (hc : c < 5) (hq : q < 25)
    (ha : a ∈ alternativas) : (c, q, a) ∈ all_triples := by
  unfold all_triples
  refine List.mem_flatMap.mpr ⟨c, List.mem_range.mpr hc, ?_⟩
  refine List.mem_flatMap.mpr ⟨q, List.mem_range.mpr hq, ?_⟩
  exact List.mem_map.mpr ⟨a, ha, rfl⟩

/-- C10: the reference table built at construction time holds exactly 625
alternative entries — exactly one for each triple of column 0-4, in-column
index 0-24 and letter A-E.  The table is built from the layout configuration
alone (`pontos_referencia_alternativas` takes no `total_questoes` argument),
so rows beyond a column's actual question count are present in it; they are
excluded only by the validity test at mapping time. -/
theorem c10 :
    pontos_referencia_alternativas.length = 625 ∧
    ref_alt_keys.Nodup ∧
    ∀ (c q : ℕ) (a : Char), c < 5 → q < 25 → a ∈ alternativas →
      (ref_alt_keys.filter fun e => decide (e = (c, q, a))).length = 1 := by
  refine ⟨by decide, keys_eq ▸ all_triples_nodup, ?_⟩
  intro c q a hc hq ha
  exact nodup_filter_eq_one ref_alt_keys (c, q, a) (keys_eq ▸ all_triples_nodup)
    (keys_eq ▸ mem_all_triples hc hq ha)

/-- C10 (witness): the exactly-one property applied to the concrete triple
(column 0, row 0, letter A). -/
theorem c10_witness :
    (0 : ℕ) < 5 ∧ (0 : ℕ) < 25 ∧ 'A' ∈ alternativas ∧
    (ref_alt_keys.filter fun e => decide (e = (0, 0, 'A'))).length = 1 :=
  ⟨by decide, by decide, by decide,
    c10.2.2 0 0 'A' (by decide) (by decide) (by decide)⟩

end Conab
